import Mathlib

/-!
Verification development for the concatenatrix CLI (main.go).

The program concatenates the text files tracked by a Git repository into one
annotated stream.  The pure core consists of:

  - isTextFile / isHiddenFile : per-path classification,
  - estimateTokens            : a size-based token estimate,
  - buildOutput               : selection plus serialization plus statistics,
  - writeOutput / toClipboard : sink dispatch.

File-system effects are modelled by an abstract map from path names to the
observations the program makes of a file (whether os.Open succeeds, the
sampled bytes, the os.Stat size, the os.ReadFile result).  Each Go function
is translated line by line over that map.
-/

namespace Concatenatrix

/-- Observable behaviour of one file, as seen through the OS calls the
program performs.  Bytes are natural numbers below 256.  A stat size is
the non-negative int64 returned by os.Stat, hence any natural number
below 2 to the 63; the int64 overflow of the size * 10 product inside
the token estimator is modelled explicitly there (wrap64), not assumed
away. -/
structure FileData where
  /-- os.Open succeeds on this path. -/
  openable : Bool
  /-- The initial file.Read returns a non-EOF error. -/
  readErr : Bool
  /-- The raw bytes of the file; the classifier samples the first 512 of them. -/
  bytes : List Nat
  /-- os.Stat result: some size, or none when stat fails. -/
  statSize : Option Nat
  /-- os.ReadFile result: some content string, or none when the read fails. -/
  readFile : Option String
  deriving Repr, DecidableEq

/-- An abstract file system: every path name maps to the observations made
of it (absent files are modelled by openable = false, statSize = none,
readFile = none). -/
def FS : Type := String → FileData

/-- Configuration record, translated from the Go Options struct. -/
structure Options where
  CopyToClipboard : Bool
  Extensions : String
  IncludeLineNumbers : Bool
  OutputFilename : String
  deriving Repr, DecidableEq

/-- A byte is a UTF-8 continuation byte (0x80 through 0xBF). -/
def isCont (b : Nat) : Bool := 0x80 ≤ b && b ≤ 0xBF

/-- Translation of the Go function utf8.Valid over a byte list: well-formed UTF-8 per
RFC 3629 (no overlong encodings, no surrogates, nothing above U+10FFFF),
following the acceptRanges table of the unicode/utf8 package. -/
def utf8Valid : List Nat → Bool
  | [] => true
  | b0 :: rest =>
    if b0 < 0x80 then utf8Valid rest
    else if b0 < 0xC2 then false
    else if b0 ≤ 0xDF then
      match rest with
      | b1 :: rest1 => isCont b1 && utf8Valid rest1
      | [] => false
    else if b0 ≤ 0xEF then
      match rest with
      | b1 :: b2 :: rest2 =>
        (if b0 = 0xE0 then decide (0xA0 ≤ b1 && b1 ≤ 0xBF)
         else if b0 = 0xED then decide (0x80 ≤ b1 && b1 ≤ 0x9F)
         else isCont b1) && isCont b2 && utf8Valid rest2
      | _ => false
    else if b0 ≤ 0xF4 then
      match rest with
      | b1 :: b2 :: b3 :: rest3 =>
        (if b0 = 0xF0 then decide (0x90 ≤ b1 && b1 ≤ 0xBF)
         else if b0 = 0xF4 then decide (0x80 ≤ b1 && b1 ≤ 0x8F)
         else isCont b1) && isCont b2 && isCont b3 && utf8Valid rest3
      | _ => false
    else false

/-- Count of bytes with value < 32 other than newline (10), carriage
return (13) and tab (9), as in the nonPrintable loop of isTextFile. -/
def nonPrintableCount (buf : List Nat) : Nat :=
  (buf.filter (fun b => b < 32 && b ≠ 10 && b ≠ 13 && b ≠ 9)).length

/-- Translation of isTextFile.  The sample is the first min(512, size)
bytes.  The Go comparison float64(nonPrintable)/float64(n) < 0.1 is
modelled by 10 * nonPrintable < n: for n ≤ 512 the two are equivalent,
because any fraction k/n with n ≤ 512 that differs from 1/10 differs from
it by at least 1/5120, vastly more than the rounding error of the float64
division (about 1e-17), and float64(1)/float64(10) rounds to exactly the
same double as the literal 0.1, so the strict < fails precisely when
10 * k ≥ n. -/
def isTextFile (fs : FS) (filename : String) : Bool :=
  let fd := fs filename
  if !fd.openable then false
  else if fd.readErr then false
  else
    let buf := fd.bytes.take 512
    let n := buf.length
    if n = 0 then true
    else if !utf8Valid buf then false
    else 10 * nonPrintableCount buf < n

/-- Splitting a character list at every occurrence of a separator
character, keeping empty segments; this is the Go function strings.Split for a
one-character separator.  The result is always non-empty. -/
def splitOnChar (sep : Char) : List Char → List (List Char)
  | [] => [[]]
  | c :: rest =>
    if c = sep then [] :: splitOnChar sep rest
    else
      match splitOnChar sep rest with
      | [] => [[c]]
      | h :: t => (c :: h) :: t

/-- The Go function strings.Split over strings, for a one-character separator. -/
def goSplit (sep : Char) (s : String) : List String :=
  (splitOnChar sep s.data).map String.mk

/-- The Go test strings.HasPrefix(part, dot): the string begins with a dot. -/
def startsWithDot (s : String) : Bool :=
  match s.data with
  | '.' :: _ => true
  | _ => false

/-- The ASCII white-space set of the Go function strings.TrimSpace fast path:
space, tab, newline, vertical tab, form feed, carriage return. -/
def isGoSpace (c : Char) : Bool :=
  c = ' ' || c = '\t' || c = '\n' || c = '\x0b' || c = '\x0c' || c = '\r'

/-- The Go function strings.TrimSpace: drop white space from both ends.  The
non-ASCII White_Space code points Go also trims never occur in the
extension strings any claim is about, so the ASCII set is modelled. -/
def trimSpace (s : String) : String :=
  String.mk (((s.data.dropWhile isGoSpace).reverse.dropWhile isGoSpace).reverse)

/-- Translation of isHiddenFile: some slash-separated component of the
path starts with a dot.  filepath.ToSlash is the identity on the
slash-separated relative paths produced by git ls-files. -/
def isHiddenFile (filePath : String) : Bool :=
  (goSplit '/' filePath).any (fun part => startsWithDot part)

/-- Helper for fileExt: scans the reversed character list of the path,
accumulating the suffix seen so far; stops at a path separator. -/
def fileExtAux : List Char → List Char → String
  | [], _ => ""
  | c :: rest, acc =>
    if c = '/' then ""
    else if c = '.' then String.mk (c :: acc)
    else fileExtAux rest (c :: acc)

/-- Translation of filepath.Ext: the suffix beginning at the final dot in
the final slash-separated element of the path, empty if there is none. -/
def fileExt (path : String) : String :=
  fileExtAux path.data.reverse []

/-- Two's-complement wraparound of a mathematical integer into the
int64 range: the literals are 2 to the 63 and 2 to the 64, so the result
always lies in [-9223372036854775808, 9223372036854775808). -/
def wrap64 (x : Int) : Int :=
  (x + 9223372036854775808) % 18446744073709551616 - 9223372036854775808

/-- Translation of estimateTokens: the stat size times 10 in int64
arithmetic (the product wraps for sizes of about 819 PiB and above,
reachable with sparse files), then divided by 35 with the toward-zero
truncation of the Go integer division (Int.tdiv); 0 when stat fails.
The quotient cannot overflow, so no wrap is needed after the division. -/
def estimateTokens (fs : FS) (filename : String) : Int :=
  match (fs filename).statSize with
  | none => 0
  | some byteSize => (wrap64 ((byteSize : Int) * 10)).tdiv 35

/-- One accumulation step of the token statistic, as the Go += on an
int64: the running total plus the estimate of one file, wrapped to
int64. -/
def addTok (fs : FS) (acc : Int) (file : String) : Int :=
  wrap64 (acc + estimateTokens fs file)

/-- Concatenation of a list of strings in order. -/
def strConcat : List String → String
  | [] => ""
  | s :: rest => s ++ strConcat rest

/-- The line-numbered rendering of a content string: segment i (0-based)
of the literal newline split is emitted as its 1-based index, a colon and
a space, the segment, and a newline, exactly as the Sprintf loop of
buildOutput does. -/
def renderNumbered (content : String) : String :=
  strConcat ((splitOnChar '\n' content.data).enum.map
    (fun p => toString (p.1 + 1) ++ ": " ++ String.mk p.2 ++ "\n"))

/-- Body text written for one file: the numbered rendering when line
numbers are requested, otherwise the raw content. -/
def renderContent (includeLineNumbers : Bool) (content : String) : String :=
  if includeLineNumbers then renderNumbered content else content

/-- The header line written before a file body, newline included. -/
def headerStr (file : String) : String :=
  "\x7b\x7bFile: " ++ file ++ "\x7d\x7d\n"

/-- The complete block appended for one successfully read file: the
header line, the body, and the single separator newline. -/
def entry (includeLineNumbers : Bool) (file content : String) : String :=
  headerStr file ++ renderContent includeLineNumbers content ++ "\n"

/-- The fixed format-description preamble written before any file. -/
def preamble : String :=
  "Format description: The following are files in the Git repository of the project. The files are separated using \x7b\x7bFile: filename.txt\x7d\x7d.\n\n"

/-- Translation of the extension-map construction at the top of
buildOutput: none when the Extensions option is the empty string
(no filtering); otherwise the comma-separated entries, each trimmed, an
entry that trims to empty stored as the empty-extension marker and every
other entry stored with a leading dot.  The Go map is used only for
membership, so a list with membership testing is an exact model. -/
def parseExtensions (extensions : String) : Option (List String) :=
  if extensions = "" then none
  else some ((goSplit ',' extensions).map (fun ext =>
    let trimmed := trimSpace ext
    if trimmed = "" then "" else "." ++ trimmed))

/-- Membership test against the optional extension map; when no map was
built every extension passes, mirroring the extMap != nil guard. -/
def extAllowed (extMap : Option (List String)) (ext : String) : Bool :=
  match extMap with
  | none => true
  | some l => l.contains ext

/-- The mutable accumulators of the buildOutput loop.  totalTokens is
the Go int64 accumulator, so it is an Int kept in the int64 range by
wrapping at every addition. -/
structure BuildState where
  buffer : String
  fileCount : Nat
  totalTokens : Int
  deriving Repr, DecidableEq

/-- One iteration of the buildOutput loop for a single candidate path,
translated branch by branch: skip hidden or non-text files; accumulate
the token estimate; skip extensions outside the map; try the full read,
skipping on failure; on success append header, body and separator and
increment the file count. -/
def processFile (fs : FS) (opts : Options) (extMap : Option (List String))
    (s : BuildState) (file : String) : BuildState :=
  if isHiddenFile file || !isTextFile fs file then s
  else
    let s := { s with totalTokens := wrap64 (s.totalTokens + estimateTokens fs file) }
    if !extAllowed extMap (fileExt file) then s
    else
      match (fs file).readFile with
      | none => s
      | some content =>
        { s with
          buffer := s.buffer ++ entry opts.IncludeLineNumbers file content
          fileCount := s.fileCount + 1 }

/-- Translation of buildOutput: fold the per-file step over the candidate
list in order, starting from the preamble, returning the output string,
the rendered-file count and the accumulated token estimate. -/
def buildOutput (fs : FS) (files : List String) (opts : Options) :
    String × Nat × Int :=
  let extMap := parseExtensions opts.Extensions
  let final := files.foldl (processFile fs opts extMap) ⟨preamble, 0, 0⟩
  (final.buffer, final.fileCount, final.totalTokens)

/-- A candidate is eligible when it is not hidden, classifies as Text,
and passes the extension filter. -/
def eligible (fs : FS) (extMap : Option (List String)) (file : String) : Bool :=
  !isHiddenFile file && isTextFile fs file && extAllowed extMap (fileExt file)

/-- A candidate is rendered when it is eligible and its full-content
read succeeds. -/
def rendered (fs : FS) (extMap : Option (List String)) (file : String) : Bool :=
  eligible fs extMap file && (fs file).readFile.isSome

/-- A candidate counts toward the token statistic as soon as it is
not hidden and classifies as Text, before the extension filter and the
content read. -/
def counted (fs : FS) (file : String) : Bool :=
  !isHiddenFile file && isTextFile fs file

/-- The block a candidate contributes to the output: its entry when its
read succeeds, nothing otherwise. -/
def entryOf (fs : FS) (opts : Options) (file : String) : String :=
  match (fs file).readFile with
  | none => ""
  | some content => entry opts.IncludeLineNumbers file content

/-- Outcome of the sink-dispatch stage.  aborted models log.Fatal inside
toClipboard terminating the process; the other constructors record which
single destination received the output, and for a file destination
whether the os.WriteFile call succeeded. -/
inductive DispatchOutcome
  | aborted
  | clipboardDone
  | fileDone (writeOk : Bool)
  | stdoutDone
  deriving Repr, DecidableEq

/-- Translation of toClipboard over a platform where clipboard.Init may
fail: none models the process being terminated by log.Fatal, some ()
models a completed clipboard write. -/
def toClipboard (clipboardInitOk : Bool) (_s : String) : Option Unit :=
  if clipboardInitOk then some () else none

/-- Translation of writeOutput: clipboard when requested (fatal if the
clipboard cannot be initialised), else the named output file when one is
configured (write failure logged, not fatal), else standard output. -/
def writeOutput (clipboardInitOk fileWriteOk : Bool) (output : String)
    (opts : Options) : DispatchOutcome :=
  if opts.CopyToClipboard then
    match toClipboard clipboardInitOk output with
    | none => .aborted
    | some _ => .clipboardDone
  else if opts.OutputFilename = "" then .stdoutDone
  else .fileDone fileWriteOk

/-- The run reaches its final summary log exactly when dispatch did not
terminate the process. -/
def runCompletes (clipboardInitOk fileWriteOk : Bool) (output : String)
    (opts : Options) : Bool :=
  match writeOutput clipboardInitOk fileWriteOk output opts with
  | .aborted => false
  | _ => true

/-! Concrete file systems used to evaluate the program on specific
inputs. -/

/-- File data for a file that does not exist: open, stat and read all
fail. -/
def absentFile : FileData := ⟨false, false, [], none, none⟩

/-- Scenario for the statistics claim: b.txt is a visible 350-byte text
file excluded by the extension filter, c.go is a visible 70-byte text
file whose full-content read fails. -/
def fsC1 : FS := fun p =>
  if p = "b.txt" then ⟨true, false, [104, 105], some 350, some "hi"⟩
  else if p = "c.go" then ⟨true, false, [104], some 70, none⟩
  else absentFile

/-- Options for the statistics scenario: extension filter set to go. -/
def optsC1 : Options := ⟨false, "go", false, ""⟩

/-- Scenario for the classifier threshold: a 10-byte sample with exactly
one control byte, i.e. exactly 10 percent non-printable. -/
def fsC2 : FS := fun p =>
  if p = "ten.txt" then ⟨true, false, 1 :: List.replicate 9 65, some 10, some "x"⟩
  else absentFile

/-- A clearly printable two-byte text file, used as classifier witness. -/
def fsW2 : FS := fun p =>
  if p = "a.txt" then ⟨true, false, [104, 105], some 2, some "hi"⟩
  else absentFile

/-- Options requesting clipboard output. -/
def optsC3 : Options := ⟨true, "", false, ""⟩

/-- A file system where every path is a small visible text file. -/
def fsC4 : FS := fun _ => ⟨true, false, [104, 105], some 2, some "hi"⟩

/-- Scenario for the separator claim: a text file whose content is the
single character x, with no trailing newline. -/
def fsC5 : FS := fun p =>
  if p = "a" then ⟨true, false, [120], some 1, some "x"⟩
  else absentFile

/-- Options with every feature off and no extension filter. -/
def optsPlain : Options := ⟨false, "", false, ""⟩

/-- Scenario for line numbering: file f without and file g with a
trailing newline in its content. -/
def fsC6 : FS := fun p =>
  if p = "f" then ⟨true, false, [76, 105], some 13, some "Line 1\nLine 2"⟩
  else if p = "g" then ⟨true, false, [76, 105], some 14, some "Line 1\nLine 2\n"⟩
  else absentFile

/-- Options with line numbers enabled. -/
def optsNum : Options := ⟨false, "", true, ""⟩

/-- Witness file systems for determinism: both agree on a.txt but differ
on every other path. -/
def fsW8a : FS := fun p =>
  if p = "a.txt" then ⟨true, false, [104], some 35, some "h"⟩
  else absentFile

/-- Second determinism witness file system, agreeing with the first only
on a.txt. -/
def fsW8b : FS := fun p =>
  if p = "a.txt" then ⟨true, false, [104], some 35, some "h"⟩
  else ⟨true, false, [0], some 7, some "z"⟩

/-- Witness file system for the token estimator: path a stats at 350
bytes, every other path fails to stat. -/
def fsW9 : FS := fun p =>
  if p = "a" then ⟨true, false, [], some 350, none⟩
  else ⟨true, false, [], none, none⟩

/-- Overflow scenario for the token estimator: the path big stats at
2 to the 60 bytes (1152921504606846976, about 1 EiB, creatable as a
sparse file), whose size times 10 exceeds the int64 maximum. -/
def fsC9 : FS := fun p =>
  if p = "big" then ⟨true, false, [104], some 1152921504606846976, none⟩
  else absentFile

/-- Witness file system for the read-failure claim: gone.txt is a
visible text file whose full read fails. -/
def fsW10 : FS := fun p =>
  if p = "gone.txt" then ⟨true, false, [104], some 35, none⟩
  else absentFile

/-! Helper lemmas characterising the buildOutput loop. -/

/-- One loop iteration, expressed through the eligibility predicates:
the buffer grows by the entry of the file exactly when the file is rendered,
the count grows by one exactly then, and the token total takes one
wrapped int64 accumulation step exactly when the file is counted
(non-hidden and Text). -/
theorem processFile_eq (fs : FS) (opts : Options)
    (extMap : Option (List String)) (s : BuildState) (file : String) :
    processFile fs opts extMap s file =
      { buffer := s.buffer ++ (if rendered fs extMap file then entryOf fs opts file else ""),
        fileCount := s.fileCount + (if rendered fs extMap file then 1 else 0),
        totalTokens := if counted fs file then addTok fs s.totalTokens file else s.totalTokens } := by
  unfold processFile rendered eligible counted entryOf addTok
  by_cases h1 : isHiddenFile file <;> by_cases h2 : isTextFile fs file <;>
    simp [h1, h2]
  by_cases h3 : extAllowed extMap (fileExt file) <;> simp [h3]
  cases hr : (fs file).readFile <;> simp [hr]

/-- The buildOutput fold from an arbitrary starting state: the buffer
grows by the concatenated entries of the rendered files in list order,
the count by their number, and the token total by one wrapped int64
accumulation step per counted file. -/
theorem foldl_processFile_eq (fs : FS) (opts : Options)
    (extMap : Option (List String)) :
    ∀ (files : List String) (s : BuildState),
      files.foldl (processFile fs opts extMap) s =
        { buffer := s.buffer ++ strConcat ((files.filter (fun f => rendered fs extMap f)).map (fun f => entryOf fs opts f)),
          fileCount := s.fileCount + (files.filter (fun f => rendered fs extMap f)).length,
          totalTokens := (files.filter (fun f => counted fs f)).foldl (addTok fs) s.totalTokens }
  | [], s => by simp [strConcat]
  | f :: files, s => by
    rw [List.foldl_cons, processFile_eq, foldl_processFile_eq fs opts extMap files]
    by_cases hr : rendered fs extMap f <;> by_cases hc : counted fs f <;>
      simp [hr, hc, List.filter_cons, List.foldl_cons, strConcat,
        String.append_assoc, Nat.add_assoc, Nat.add_comm, Nat.add_left_comm]

/-- buildOutput in closed form: preamble plus the entries of the rendered
files in input order; the rendered-file count; the wrapped int64 token
accumulation over the counted files. -/
theorem buildOutput_eq (fs : FS) (files : List String) (opts : Options) :
    buildOutput fs files opts =
      (preamble ++ strConcat ((files.filter (fun f => rendered fs (parseExtensions opts.Extensions) f)).map (fun f => entryOf fs opts f)),
       (files.filter (fun f => rendered fs (parseExtensions opts.Extensions) f)).length,
       (files.filter (fun f => counted fs f)).foldl (addTok fs) 0) := by
  show (let final := List.foldl (processFile fs opts (parseExtensions opts.Extensions))
          { buffer := preamble, fileCount := 0, totalTokens := 0 } files
        (final.buffer, final.fileCount, final.totalTokens)) = _
  rw [foldl_processFile_eq]
  simp

/-! Helper notions and lemmas about string endings, used to analyse the
separator newline of the serialization format. -/

/-- The last character of a string, none for the empty string. -/
def lastChar (s : String) : Option Char := s.data.getLast?

/-- The string ends with two consecutive newline characters, which is
what it takes for the text after a newline-terminated body to start with
a blank line. -/
def endsWith2NL (s : String) : Bool :=
  match s.data.reverse with
  | c1 :: c2 :: _ => c1 = '\n' && c2 = '\n'
  | _ => false

/-- Two adjacent newline characters (a blank line) occur somewhere in
the character list. -/
def hasDoubleNL : List Char → Bool
  | '\n' :: '\n' :: _ => true
  | _ :: rest => hasDoubleNL rest
  | [] => false

theorem lastChar_append (s t : String) :
    lastChar (s ++ t) = (t.data.getLast?).or (s.data.getLast?) := by
  unfold lastChar
  rw [String.data_append, List.getLast?_append]

theorem endsWith2NL_append_nl (s : String) (h : s.data ≠ []) :
    endsWith2NL (s ++ "\n") = (lastChar s == some '\n') := by
  unfold endsWith2NL lastChar
  rw [String.data_append]
  have hnl : ("\n" : String).data = ['\n'] := rfl
  rw [hnl, List.reverse_append]
  cases hrev : s.data.reverse with
  | nil => exact absurd (List.reverse_eq_nil_iff.mp hrev) h
  | cons d tail =>
    have hlast : s.data.getLast? = some d := by
      rw [← List.head?_reverse, hrev]; rfl
    rw [hlast]
    by_cases hd : d = '\n' <;> simp [hd]

theorem lastChar_headerStr (file : String) :
    lastChar (headerStr file) = some '\n' := by
  unfold headerStr
  rw [lastChar_append]
  have h : ("\x7d\x7d\n" : String).data.getLast? = some '\n' := rfl
  rw [h]
  rfl

theorem headerStr_data_ne_nil (file : String) : (headerStr file).data ≠ [] := by
  intro hnil
  have : lastChar (headerStr file) = none := by
    unfold lastChar; rw [hnil]; rfl
  rw [lastChar_headerStr] at this
  exact Option.noConfusion this

/-- splitOnChar never returns the empty list of segments. -/
theorem splitOnChar_ne_nil (sep : Char) :
    ∀ l : List Char, splitOnChar sep l ≠ []
  | [] => by simp [splitOnChar]
  | c :: rest => by
    unfold splitOnChar
    by_cases h : c = sep
    · simp [h]
    · simp only [h, if_false]
      cases hs : splitOnChar sep rest <;> simp

/-- The literal split has one segment more than there are separator
occurrences, so a trailing separator contributes a trailing empty
segment. -/
theorem splitOnChar_length (sep : Char) :
    ∀ l : List Char, (splitOnChar sep l).length = l.count sep + 1
  | [] => by simp [splitOnChar]
  | c :: rest => by
    unfold splitOnChar
    by_cases h : c = sep
    · simp [h, splitOnChar_length sep rest, List.count_cons]
    · cases hs : splitOnChar sep rest with
      | nil => exact absurd hs (splitOnChar_ne_nil sep rest)
      | cons hd tl =>
        have hlen := splitOnChar_length sep rest
        rw [hs] at hlen
        have hb : (c == sep) = false := by simp [h]
        simp only [h, if_false, List.length_cons, List.count_cons, hb]
        simp only [List.length_cons] at hlen
        simp only [Bool.false_eq_true, if_false]
        omega

theorem strConcat_lastChar_nl :
    ∀ l : List String, l ≠ [] → (∀ s ∈ l, lastChar s = some '\n') →
      lastChar (strConcat l) = some '\n'
  | [], h, _ => absurd rfl h
  | [s], _, hall => by
    show lastChar (s ++ strConcat []) = some '\n'
    have : strConcat [] = "" := rfl
    rw [this, String.append_empty]
    exact hall s (by simp)
  | s :: t :: ts, _, hall => by
    show lastChar (s ++ strConcat (t :: ts)) = some '\n'
    rw [lastChar_append]
    have ih := strConcat_lastChar_nl (t :: ts) (by simp)
      (fun x hx => hall x (List.mem_cons_of_mem _ hx))
    unfold lastChar at ih
    rw [ih]
    rfl

theorem renderNumbered_lastChar (c : String) :
    lastChar (renderNumbered c) = some '\n' := by
  unfold renderNumbered
  apply strConcat_lastChar_nl
  · simp only [ne_eq, List.map_eq_nil_iff, List.enum_eq_nil]
    exact splitOnChar_ne_nil '\n' c.data
  · intro s hs
    simp only [List.mem_map] at hs
    obtain ⟨p, _, rfl⟩ := hs
    rw [lastChar_append]
    have h : ("\n" : String).data.getLast? = some '\n' := rfl
    rw [h]
    rfl

/-! Helper lemmas for determinism: every observation buildOutput makes
of the file system for a candidate goes through the map at that path. -/

theorem isTextFile_congr (fs1 fs2 : FS) (f : String) (h : fs1 f = fs2 f) :
    isTextFile fs1 f = isTextFile fs2 f := by
  unfold isTextFile; rw [h]

theorem estimateTokens_congr (fs1 fs2 : FS) (f : String) (h : fs1 f = fs2 f) :
    estimateTokens fs1 f = estimateTokens fs2 f := by
  unfold estimateTokens; rw [h]

theorem processFile_congr (fs1 fs2 : FS) (opts : Options)
    (extMap : Option (List String)) (s : BuildState) (f : String)
    (h : fs1 f = fs2 f) :
    processFile fs1 opts extMap s f = processFile fs2 opts extMap s f := by
  unfold processFile
  rw [isTextFile_congr fs1 fs2 f h, estimateTokens_congr fs1 fs2 f h, h]

theorem foldl_processFile_congr (fs1 fs2 : FS) (opts : Options)
    (extMap : Option (List String)) :
    ∀ (files : List String) (s : BuildState),
      (∀ f ∈ files, fs1 f = fs2 f) →
      files.foldl (processFile fs1 opts extMap) s
        = files.foldl (processFile fs2 opts extMap) s
  | [], _, _ => rfl
  | f :: files, s, h => by
    rw [List.foldl_cons, List.foldl_cons,
      processFile_congr fs1 fs2 opts extMap s f (h f (by simp))]
    exact foldl_processFile_congr fs1 fs2 opts extMap files _
      (fun x hx => h x (List.mem_cons_of_mem _ hx))

/-! Claim theorems. -/

/-- Claim C1, counterexample.  With the extension filter set to go,
candidate b.txt is skipped by the extension filter and candidate c.go
fails its full-content read, so nothing is rendered (file count 0), yet
the token estimate returned is 120 = 100 + 20: both skipped candidates
contributed their estimates, contradicting the claim that they
contribute nothing to the cumulative token estimate. -/
theorem tokens_include_skipped_counterexample :
    (buildOutput fsC1 ["b.txt", "c.go"] optsC1).2.1 = 0 ∧
    (buildOutput fsC1 ["b.txt", "c.go"] optsC1).2.2 = 120 ∧
    rendered fsC1 (parseExtensions optsC1.Extensions) "b.txt" = false ∧
    rendered fsC1 (parseExtensions optsC1.Extensions) "c.go" = false ∧
    eligible fsC1 (parseExtensions optsC1.Extensions) "c.go" = true ∧
    estimateTokens fsC1 "b.txt" = 100 ∧
    estimateTokens fsC1 "c.go" = 20 := by
  decide

/-- Claim C1, amended.  The rendered-file count reflects only files
actually rendered, but the cumulative token estimate takes one int64
accumulation step for every non-hidden Text candidate, before the
extension filter and the content read, so extension-skipped and
read-failed candidates do contribute to it. -/
theorem stats_characterization :
    ∀ (fs : FS) (files : List String) (opts : Options),
      (buildOutput fs files opts).2.1
          = (files.filter (fun f => rendered fs (parseExtensions opts.Extensions) f)).length ∧
      (buildOutput fs files opts).2.2
          = (files.filter (fun f => counted fs f)).foldl (addTok fs) 0 := by
  intro fs files opts
  rw [buildOutput_eq]
  exact ⟨rfl, rfl⟩

/-- Claim C2, counterexample.  A non-empty valid-UTF-8 sample of length
10 with exactly one control byte sits exactly at the 10 percent
threshold; the claim classifies it Text, but the program classifies it
Binary. -/
theorem text_threshold_counterexample :
    ((fsC2 "ten.txt").bytes.take 512).length = 10 ∧
    utf8Valid ((fsC2 "ten.txt").bytes.take 512) = true ∧
    nonPrintableCount ((fsC2 "ten.txt").bytes.take 512) = 1 ∧
    10 * nonPrintableCount ((fsC2 "ten.txt").bytes.take 512)
      = ((fsC2 "ten.txt").bytes.take 512).length ∧
    isTextFile fsC2 "ten.txt" = false := by
  decide

/-- Claim C2, amended.  For a non-empty valid-UTF-8 sample the file is
classified Text exactly when the control-byte count is strictly below
10 percent of the sample length; at exactly 10 percent or above it is
classified Binary. -/
theorem text_threshold_amended :
    ∀ (fs : FS) (f : String),
      (fs f).openable = true → (fs f).readErr = false →
      ((fs f).bytes.take 512).length ≠ 0 →
      utf8Valid ((fs f).bytes.take 512) = true →
      (isTextFile fs f = true
        ↔ 10 * nonPrintableCount ((fs f).bytes.take 512)
            < ((fs f).bytes.take 512).length) := by
  intro fs f h1 h2 h3 h4
  have hb : (fs f).bytes ≠ [] := by
    intro h0
    apply h3
    rw [h0]
    rfl
  unfold isTextFile
  simp [h1, h2, h4, hb]

/-- Witness for the amended classifier threshold at a printable
two-byte file. -/
theorem text_threshold_amended_witness : isTextFile fsW2 "a.txt" = true :=
  (text_threshold_amended fsW2 "a.txt" rfl rfl (by decide) (by decide)).mpr
    (by decide)

/-- Claim C3, counterexample.  With clipboard output requested and the
clipboard unavailable, the dispatch stage terminates the process
(log.Fatal in toClipboard) instead of completing the run, contradicting
the claim that the failure is non-fatal. -/
theorem clipboard_fatal_counterexample :
    writeOutput false true "payload" optsC3 = DispatchOutcome.aborted ∧
    runCompletes false true "payload" optsC3 = false := by
  decide

/-- Claim C3, amended.  When clipboard output is requested, a clipboard
initialisation failure is fatal: the process aborts during delivery and
the run does not complete, even though the output content was produced
beforehand; only a successful initialisation lets the run complete. -/
theorem clipboard_failure_amended :
    ∀ (clipOk fwOk : Bool) (output : String) (opts : Options),
      opts.CopyToClipboard = true →
      (clipOk = false →
        writeOutput clipOk fwOk output opts = DispatchOutcome.aborted ∧
        runCompletes clipOk fwOk output opts = false) ∧
      (clipOk = true →
        writeOutput clipOk fwOk output opts = DispatchOutcome.clipboardDone ∧
        runCompletes clipOk fwOk output opts = true) := by
  intro clipOk fwOk output opts h
  constructor <;> intro hc <;> subst hc <;>
    simp [writeOutput, runCompletes, toClipboard, h]

/-- Witness for the amended clipboard claim at a concrete failing
platform. -/
theorem clipboard_failure_amended_witness :
    writeOutput false true "x" optsC3 = DispatchOutcome.aborted ∧
    runCompletes false true "x" optsC3 = false :=
  (clipboard_failure_amended false true "x" optsC3 rfl).1 rfl

/-- Claim C4, confirmed.  The criteria string parses to the markers
.go and the empty string; under it a non-hidden Text file a.go is
eligible, a non-hidden Text file README with no extension is eligible,
and b.txt is excluded whatever its content. -/
theorem extension_criteria_semantics :
    ∀ fs : FS,
      isTextFile fs "a.go" = true → isTextFile fs "README" = true →
      parseExtensions "go," = some [".go", ""] ∧
      eligible fs (parseExtensions "go,") "a.go" = true ∧
      eligible fs (parseExtensions "go,") "README" = true ∧
      eligible fs (parseExtensions "go,") "b.txt" = false := by
  intro fs h1 h2
  refine ⟨by decide, ?_, ?_, ?_⟩
  · unfold eligible
    rw [h1]
    decide
  · unfold eligible
    rw [h2]
    decide
  · unfold eligible
    have hx : extAllowed (parseExtensions "go,") (fileExt "b.txt") = false := by
      decide
    rw [hx]
    simp

/-- Witness for the extension-criteria claim on a file system where
every path is a small text file. -/
theorem extension_criteria_semantics_witness :
    parseExtensions "go," = some [".go", ""] ∧
    eligible fsC4 (parseExtensions "go,") "a.go" = true ∧
    eligible fsC4 (parseExtensions "go,") "README" = true ∧
    eligible fsC4 (parseExtensions "go,") "b.txt" = false :=
  extension_criteria_semantics fsC4 (by decide) (by decide)

/-- Claim C5, counterexample.  The file a with raw content x (no
trailing newline) is rendered without line numbers; its emitted block is
the header followed by x and a single newline, which contains no blank
line at all (no two adjacent newlines), contradicting the claim that
exactly one blank line follows each file body regardless of whether the
content ends with a newline. -/
theorem separator_blank_line_counterexample :
    (buildOutput fsC5 ["a"] optsPlain).2.1 = 1 ∧
    (buildOutput fsC5 ["a"] optsPlain).1 = preamble ++ entry false "a" "x" ∧
    entry false "a" "x" = "\x7b\x7bFile: a\x7d\x7d\nx\n" ∧
    hasDoubleNL (entry false "a" "x").data = false ∧
    endsWith2NL (entry false "a" "x") = false := by
  decide

/-- Claim C5, amended.  Exactly one separator newline is appended after
each rendered file body; this yields a blank line exactly when the body
itself ends with a newline, which always holds with line numbering but
with raw content holds only when the content ends with a newline or is
empty. -/
theorem separator_newline_amended :
    ∀ (ln : Bool) (file content : String),
      entry ln file content
          = headerStr file ++ renderContent ln content ++ "\n" ∧
      endsWith2NL (entry true file content) = true ∧
      endsWith2NL (entry false file content)
          = (lastChar content == some '\n' || content.data.isEmpty) := by
  intro ln file content
  refine ⟨rfl, ?_, ?_⟩
  · show endsWith2NL ((headerStr file ++ renderContent true content) ++ "\n") = true
    have hne : (headerStr file ++ renderContent true content).data ≠ [] := by
      rw [String.data_append]
      intro hnil
      exact headerStr_data_ne_nil file (List.append_eq_nil.mp hnil).1
    rw [endsWith2NL_append_nl _ hne, lastChar_append]
    have hrn : (renderContent true content).data.getLast? = some '\n' :=
      renderNumbered_lastChar content
    rw [hrn]
    rfl
  · show endsWith2NL ((headerStr file ++ renderContent false content) ++ "\n") = _
    have hne : (headerStr file ++ renderContent false content).data ≠ [] := by
      rw [String.data_append]
      intro hnil
      exact headerStr_data_ne_nil file (List.append_eq_nil.mp hnil).1
    rw [endsWith2NL_append_nl _ hne, lastChar_append]
    have hrc : renderContent false content = content := rfl
    have hh : (headerStr file).data.getLast? = some '\n' := lastChar_headerStr file
    rw [hrc, hh]
    cases hc : content.data.getLast? with
    | none =>
      have hdata : content.data = [] := by
        cases hd : content.data with
        | nil => rfl
        | cons x xs =>
          rw [hd] at hc
          simp [List.getLast?] at hc
      simp [lastChar, hc, hdata]
    | some d =>
      have hdata : content.data ≠ [] := by
        intro h0
        rw [h0] at hc
        exact Option.noConfusion hc
      simp [lastChar, hc, hdata]

/-- Claim C6, confirmed.  Line numbering splits literally on newlines
and numbers every segment including a trailing empty one: the two
round-trip examples hold through buildOutput, and in general the number
of emitted segments is the newline count plus one. -/
theorem line_numbering_literal_split :
    renderNumbered "Line 1\nLine 2" = "1: Line 1\n2: Line 2\n" ∧
    renderNumbered "Line 1\nLine 2\n" = "1: Line 1\n2: Line 2\n3: \n" ∧
    (buildOutput fsC6 ["f"] optsNum).1
        = preamble ++ "\x7b\x7bFile: f\x7d\x7d\n1: Line 1\n2: Line 2\n\n" ∧
    (buildOutput fsC6 ["g"] optsNum).1
        = preamble ++ "\x7b\x7bFile: g\x7d\x7d\n1: Line 1\n2: Line 2\n3: \n\n" ∧
    (∀ c : String, (splitOnChar '\n' c.data).length = c.data.count '\n' + 1) := by
  refine ⟨by decide, by decide, ?_, ?_, fun c => splitOnChar_length '\n' c.data⟩ <;>
    · set_option maxRecDepth 8000 in decide

/-- Claim C7, confirmed.  The serialized output is the preamble followed
by the entries of exactly the rendered files, concatenated in input
candidate order: selection and serialization never reorder files. -/
theorem output_order_preservation :
    ∀ (fs : FS) (files : List String) (opts : Options),
      (buildOutput fs files opts).1
        = preamble ++ strConcat
            ((files.filter (fun f => rendered fs (parseExtensions opts.Extensions) f)).map
              (fun f => entryOf fs opts f)) := by
  intro fs files opts
  rw [buildOutput_eq]

/-- Claim C8, confirmed.  buildOutput is deterministic: its output and
statistics depend only on the options and on the per-file observations
of the listed candidates, so two runs over file systems that agree on
every listed file produce identical results. -/
theorem buildOutput_deterministic :
    ∀ (files : List String) (opts : Options) (fs1 fs2 : FS),
      (∀ f ∈ files, fs1 f = fs2 f) →
      buildOutput fs1 files opts = buildOutput fs2 files opts := by
  intro files opts fs1 fs2 h
  simp only [buildOutput]
  rw [foldl_processFile_congr fs1 fs2 opts (parseExtensions opts.Extensions) files _ h]

/-- Witness for determinism: two file systems that agree on a.txt but
differ everywhere else give identical buildOutput results on the
candidate list containing only a.txt. -/
theorem buildOutput_deterministic_witness :
    buildOutput fsW8a ["a.txt"] optsPlain = buildOutput fsW8b ["a.txt"] optsPlain :=
  buildOutput_deterministic ["a.txt"] optsPlain fsW8a fsW8b
    (by
      intro f hf
      simp only [List.mem_singleton] at hf
      subst hf
      rfl)

/-- Claim C9, counterexample.  At a stat size of 2 to the 60 bytes the
int64 product size * 10 wraps, and the estimator returns the negative
wrapped quotient -197643686504030910 instead of size * 10 / 35
(which is 329406144173384850), refuting the for-every-path formula. -/
theorem estimateTokens_overflow_counterexample :
    (fsC9 "big").statSize = some 1152921504606846976 ∧
    estimateTokens fsC9 "big" = -197643686504030910 ∧
    ((1152921504606846976 * 10 / 35 : Nat) : Int) = 329406144173384850 ∧
    estimateTokens fsC9 "big" ≠ ((1152921504606846976 * 10 / 35 : Nat) : Int) := by
  decide

/-- Claim C9, amended.  The estimator returns 0 when stat fails; for a
stat size whose product with 10 fits in int64 (size at most
922337203685477580, far beyond any dense file but below what sparse
files allow) it returns size * 10 / 35 with toward-zero integer
truncation, characterised by the two division bounds, with 100 at 350
bytes and 0 at 0 bytes; for larger sizes the int64 product wraps, and
the result is the truncated quotient of the wrapped product. -/
theorem estimateTokens_contract_amended :
    ∀ (fs : FS) (p : String),
      ((fs p).statSize = none → estimateTokens fs p = 0) ∧
      (∀ n, (fs p).statSize = some n →
        estimateTokens fs p = (wrap64 ((n : Int) * 10)).tdiv 35 ∧
        (n * 10 < 9223372036854775808 →
          estimateTokens fs p = ((n * 10 / 35 : Nat) : Int) ∧
          35 * estimateTokens fs p ≤ (n : Int) * 10 ∧
          (n : Int) * 10 < 35 * (estimateTokens fs p + 1))) ∧
      ((fs p).statSize = some 350 → estimateTokens fs p = 100) ∧
      ((fs p).statSize = some 0 → estimateTokens fs p = 0) := by
  intro fs p
  refine ⟨?_, ?_, ?_, ?_⟩
  · intro h
    unfold estimateTokens
    rw [h]
  · intro n h
    have he : estimateTokens fs p = (wrap64 ((n : Int) * 10)).tdiv 35 := by
      unfold estimateTokens
      rw [h]
    refine ⟨he, ?_⟩
    intro hlt
    have hw : wrap64 ((n : Int) * 10) = (n : Int) * 10 := by
      unfold wrap64
      omega
    have hc : (((n * 10 / 35 : Nat)) : Int) = ((n : Int) * 10).tdiv 35 := by
      have hq := Int.ofNat_tdiv (n * 10) 35
      push_cast at hq
      exact hq
    have he2 : estimateTokens fs p = ((n * 10 / 35 : Nat) : Int) := by
      rw [he, hw, ← hc]
    refine ⟨he2, ?_, ?_⟩ <;> rw [he2] <;> omega
  · intro h
    unfold estimateTokens
    rw [h]
    decide
  · intro h
    unfold estimateTokens
    rw [h]
    decide

/-- Witness for the amended token estimator at a 350-byte file and at a
path whose stat fails. -/
theorem estimateTokens_contract_amended_witness :
    estimateTokens fsW9 "a" = 100 ∧ estimateTokens fsW9 "b" = 0 :=
  ⟨(estimateTokens_contract_amended fsW9 "a").2.2.1 rfl,
   (estimateTokens_contract_amended fsW9 "b").1 rfl⟩

/-- Claim C10, confirmed.  When the full-content read of a candidate fails,
the loop iteration leaves the output buffer and the rendered-file count
unchanged (no header, no partial body); and in every produced output the
emitted entries are exactly one per rendered file, so their number
equals the reported file count. -/
theorem read_failure_no_partial_output :
    ∀ (fs : FS) (opts : Options) (files : List String) (s : BuildState)
      (file : String),
      ((fs file).readFile = none →
        (processFile fs opts (parseExtensions opts.Extensions) s file).buffer
            = s.buffer ∧
        (processFile fs opts (parseExtensions opts.Extensions) s file).fileCount
            = s.fileCount) ∧
      ((buildOutput fs files opts).2.1
          = ((files.filter (fun f => rendered fs (parseExtensions opts.Extensions) f)).map
              (fun f => entryOf fs opts f)).length ∧
       (buildOutput fs files opts).1
          = preamble ++ strConcat
              ((files.filter (fun f => rendered fs (parseExtensions opts.Extensions) f)).map
                (fun f => entryOf fs opts f))) := by
  intro fs opts files s file
  constructor
  · intro h
    have hr : rendered fs (parseExtensions opts.Extensions) file = false := by
      unfold rendered
      rw [h]
      simp
    rw [processFile_eq]
    simp [hr]
  · rw [buildOutput_eq]
    exact ⟨by rw [List.length_map], rfl⟩

/-- Witness for the read-failure claim: processing gone.txt, whose read
fails, leaves the buffer and count of the initial state untouched. -/
theorem read_failure_no_partial_output_witness :
    (processFile fsW10 optsPlain (parseExtensions optsPlain.Extensions)
        ⟨preamble, 0, 0⟩ "gone.txt").buffer = preamble ∧
    (processFile fsW10 optsPlain (parseExtensions optsPlain.Extensions)
        ⟨preamble, 0, 0⟩ "gone.txt").fileCount = 0 :=
  (read_failure_no_partial_output fsW10 optsPlain [] ⟨preamble, 0, 0⟩
    "gone.txt").1 rfl

end Concatenatrix
